import Mathlib

/-!
# Verification of the csync background-synchronization engine

Shallow embedding of `src/csync/daemon.py` (class `CsyncDaemon`): the
exclusion matcher, the change coalescer, the sync scheduler trigger, the
sync executor, the scheduler loop, and the start/stop lifecycle.

Paths and patterns are modelled as `List Char` (forward-slash relative
paths, as produced by `CsyncDaemon._relative_path`) or `String`; clock
values as `ℚ` (Python floats, no claim depends on rounding).
-/

namespace Csync

/-! ## Exclusion matcher (`CsyncDaemon.should_exclude_file`)

`fnmatch.fnmatch(s, pat)` is embedded as `globMatch pat s`, covering the
`*` (any run of characters, including `/`) and `?` (any one character)
metacharacters; other characters match literally.  On POSIX `fnmatch`'s
case normalization is the identity. -/

def globMatch : List Char → List Char → Bool
  | [], s => s.isEmpty
  | '*' :: ps, s => s.tails.any fun t => globMatch ps t
  | '?' :: _, [] => false
  | '?' :: ps, _ :: s => globMatch ps s
  | _ :: _, [] => false
  | p :: ps, c :: s => p = c && globMatch ps s

/-- `pattern.replace("\\", "/")` (the pattern is a single character, so the
replacement acts characterwise). -/
def normalizeSep (pat : List Char) : List Char :=
  pat.map fun c => if c = '\\' then '/' else c

/-- `str.rstrip("/")`: remove every trailing `/`. -/
def rstripSlash (s : List Char) : List Char :=
  (s.reverse.dropWhile (· = '/')).reverse

/-- `pathlib.Path.name`: the part of the path after the last `/`. -/
def baseName (p : List Char) : List Char :=
  (p.reverse.takeWhile (· ≠ '/')).reverse

/-- One iteration of the pattern loop of `should_exclude_file`, for the
relative path `relPath` of the file against one configured `pattern`. -/
def matchesPattern (relPath : List Char) (pattern : List Char) : Bool :=
  let np := normalizeSep pattern
  if np.getLast? = some '/' then
    -- Directory pattern
    (rstripSlash np).isPrefixOf relPath
  else if '*' ∈ np then
    -- Wildcard pattern
    globMatch np relPath || globMatch np (baseName relPath)
  else
    -- Exact match
    relPath = np || baseName relPath = np

/-- `CsyncDaemon.should_exclude_file`, as a function of the configured
exclusion patterns and the path relative to the watched root (an empty or
absent pattern list returns `False` at once; otherwise the first matching
pattern excludes). -/
def should_exclude_file (patterns : List (List Char)) (relPath : List Char) : Bool :=
  patterns.any (matchesPattern relPath)

/-! ## Daemon state (`CsyncDaemon.__init__`)

`pending_changes`, `last_sync_time`, `sync_count` and `is_running` are the
fields of `CsyncDaemon` the verified operations touch.  `registry` logs the
calls made to `ProcessManager.update_daemon_stats`
(`(local_path, last_sync_time, sync_count)` triples, most recent first);
`process_manager.py` is not part of the verified sources, and the spec
describes `updateStats` as a best-effort record update, so only the calls
issued to it are modelled. -/

structure DaemonState where
  localPath : String
  pending : Finset String
  lastSyncTime : ℚ
  syncCount : ℕ
  isRunning : Bool
  registry : List (String × ℚ × ℕ)

/-- Field values set by `CsyncDaemon.__init__`: empty pending set,
`last_sync_time = 0.0`, `sync_count = 0`, not running. -/
def initState (localPath : String) : DaemonState :=
  { localPath := localPath
    pending := ∅
    lastSyncTime := 0
    syncCount := 0
    isRunning := false
    registry := [] }

/-- `self.sync_delay = 5.0`. -/
def sync_delay : ℚ := 5

/-- `self.max_sync_interval = 300.0`. -/
def max_sync_interval : ℚ := 300

/-! ## Change coalescer (`add_pending_change` / `get_pending_changes`) -/

/-- `CsyncDaemon.add_pending_change`: insert the path into the pending set
(under `sync_lock`). -/
def add_pending_change (st : DaemonState) (p : String) : DaemonState :=
  { st with pending := insert p st.pending }

/-- `CsyncDaemon.get_pending_changes`: under `sync_lock`, copy the pending
set, clear it, and return the copy. -/
def get_pending_changes (st : DaemonState) : Finset String × DaemonState :=
  (st.pending, { st with pending := ∅ })

/-- A linearized history of coalescer operations: the event-handler thread's
`add_pending_change` calls and the scheduler's `get_pending_changes` calls,
in the order the mutex serializes them. -/
inductive CoalescerOp where
  | record (p : String)
  | drain
  deriving DecidableEq

/-- Number of drains in a history. -/
def countDrains : List CoalescerOp → ℕ
  | [] => 0
  | CoalescerOp.drain :: rest => countDrains rest + 1
  | CoalescerOp.record _ :: rest => countDrains rest

/-- Execute a coalescer history from state `st`: final state, plus the list
of the sets returned by the successive drains. -/
def coalescerRun (st : DaemonState) : List CoalescerOp → DaemonState × List (Finset String)
  | [] => (st, [])
  | CoalescerOp.record p :: rest => coalescerRun (add_pending_change st p) rest
  | CoalescerOp.drain :: rest =>
      ((coalescerRun (get_pending_changes st).2 rest).1,
        (get_pending_changes st).1 :: (coalescerRun (get_pending_changes st).2 rest).2)

/-- `p` is recorded in window `k` of the history: some `record p` operation
has exactly `k` drains strictly before it. -/
def recordedInWindow (p : String) : List CoalescerOp → ℕ → Prop
  | [], _ => False
  | CoalescerOp.record q :: rest, 0 => q = p ∨ recordedInWindow p rest 0
  | CoalescerOp.record _ :: rest, k + 1 => recordedInWindow p rest (k + 1)
  | CoalescerOp.drain :: _, 0 => False
  | CoalescerOp.drain :: rest, k + 1 => recordedInWindow p rest k

/-! ## Sync scheduler trigger (`CsyncDaemon.should_sync_now`) -/

/-- `CsyncDaemon.should_sync_now` at clock value `now` (`time.time()`):
force a sync when the max interval is exceeded, else sync when there are
pending changes and the delay has passed. -/
def should_sync_now (st : DaemonState) (now : ℚ) : Bool :=
  if now - st.lastSyncTime > max_sync_interval then
    true
  else if st.pending.Nonempty ∧ now - st.lastSyncTime > sync_delay then
    true
  else
    false

/-! ## Sync executor (`CsyncDaemon.perform_sync`) -/

/-- Outcome of `self.rsync_wrapper.push(dry_run=False, verbose=False)`:
returns `True`, returns `False`, or raises (the raise is caught by
`perform_sync`'s `except` clause, which returns `False`). -/
inductive TransferOutcome where
  | success
  | failure
  | raised
  deriving DecidableEq

/-- `ProcessManager.update_daemon_stats(local_path, last_sync_time,
sync_count)`.  Modelled from the spec: `process_manager.py` is missing from
the verified sources; §4.5 specifies `updateStats` as a best-effort update
of the existing record keyed by the canonical path, so the model records
the issued call. -/
def update_daemon_stats (st : DaemonState) (path : String) (t : ℚ) (n : ℕ) : DaemonState :=
  { st with registry := (path, t, n) :: st.registry }

/-- `CsyncDaemon.perform_sync`: drain the pending set via
`get_pending_changes`, invoke the transfer (`rsync_wrapper.push`), and on
success bump `sync_count`, set `last_sync_time = time.time()` (`now`) and
push the new statistics to the process registry.  On failure — and on an
exception from the transfer, caught by the surrounding `except` — nothing
else changes and `False` is returned. -/
def perform_sync (st : DaemonState) (outcome : TransferOutcome) (now : ℚ) :
    DaemonState × Bool :=
  let (_changes, st1) := get_pending_changes st
  match outcome with
  | TransferOutcome.success =>
      let st2 := { st1 with syncCount := st1.syncCount + 1, lastSyncTime := now }
      (update_daemon_stats st2 st2.localPath st2.lastSyncTime st2.syncCount, true)
  | TransferOutcome.failure => (st1, false)
  | TransferOutcome.raised => (st1, false)

/-! ## Scheduler loop (`CsyncDaemon.sync_loop`)

One `while self.is_running` iteration is driven by a `Tick`: the clock
value at the iteration, whether an exception escapes the loop body into
the iteration's `except` clause (`perform_sync` traps transfer errors
itself, so such an exception comes from the surrounding body and is
modelled as leaving the daemon state unchanged), the transfer outcome used
when a sync fires, and whether an external `stop()` flips `is_running`
during the iteration. -/

structure Tick where
  now : ℚ
  bodyRaises : Bool
  outcome : TransferOutcome
  stopAfter : Bool

/-- External `stop()` request arriving during the tick. -/
def applyStop (st : DaemonState) (t : Tick) : DaemonState :=
  if t.stopAfter then { st with isRunning := false } else st

/-- One iteration of the `while` body of `sync_loop`: on a normal pass,
sync when `should_sync_now` and then `time.sleep(1.0)`; when an exception
is raised, the `except` clause logs and does `time.sleep(5.0)`.  Returns
the state after the iteration and the sleep duration used. -/
def sync_tick (st : DaemonState) (t : Tick) : DaemonState × ℚ :=
  if t.bodyRaises then
    (applyStop st t, 5)
  else
    let st' := if should_sync_now st t.now then (perform_sync st t.outcome t.now).1 else st
    (applyStop st' t, 1)

/-- `CsyncDaemon.sync_loop` over a finite schedule of ticks: the list of
sleep durations performed, and whether the loop exited through its
`while` guard (`is_running` found false) before the schedule ran out. -/
def sync_loop (st : DaemonState) : List Tick → List ℚ × Bool
  | [] => ([], false)
  | t :: rest =>
      if st.isRunning then
        ((sync_tick st t).2 :: (sync_loop (sync_tick st t).1 rest).1,
          (sync_loop (sync_tick st t).1 rest).2)
      else
        ([], true)

/-! ## Start lifecycle (`CsyncDaemon.start`)

`start` is a sequence of side effects whose order is fixed by the source:
check the registry for an existing daemon, schedule the watcher, build the
`DaemonInfo`, fork when detaching (the parent registers the record under
the child's pid and returns), register (child only — the
`not detach or not start_daemon(...)` condition short-circuits in
foreground mode, so `start_daemon` is evaluated only when `detach` is
true), set up signal handlers, start the observer, set `is_running`, start
the scheduler thread, perform the initial sync, and enter the keep-running
loop. -/

inductive StartEffect where
  | scheduleWatcher
  | forkParent
  | forkChild
  | register
  | setupSignals
  | observerStart
  | schedulerThreadStart
  | initialSync
  | watchLoop
  deriving DecidableEq

/-- Effects of `start` from the registration check on, in the process that
goes on to run the daemon (the forked child when `detach`, the caller
itself otherwise). -/
def daemonTail (detach : Bool) : List StartEffect :=
  (if detach then [StartEffect.register] else [])
    ++ [StartEffect.setupSignals, StartEffect.observerStart,
        StartEffect.schedulerThreadStart, StartEffect.initialSync,
        StartEffect.watchLoop]

/-- `CsyncDaemon.start alreadyRunning detach forkFails` where
`alreadyRunning` is the truthiness of
`process_manager.get_daemon_by_path(local_path)` (a live record exists for
the canonical path) and `forkFails` tells whether `os.fork()` raises
`OSError`.  Returns the effect trace of the invoking process, the value
`start` returns to the invoker, and the effect trace of the daemon process
when one runs (`none` when no daemon survives the call). -/
def start_run (alreadyRunning detach forkFails : Bool) :
    List StartEffect × Bool × Option (List StartEffect) :=
  if alreadyRunning then
    ([], false, none)
  else if detach then
    if forkFails then
      ([StartEffect.scheduleWatcher], false, none)
    else
      ([StartEffect.scheduleWatcher, StartEffect.forkParent, StartEffect.register],
        true,
        some ([StartEffect.scheduleWatcher, StartEffect.forkChild] ++ daemonTail true))
  else
    (StartEffect.scheduleWatcher :: daemonTail false,
      true,
      some (StartEffect.scheduleWatcher :: daemonTail false))

/-! ## Helper lemmas -/

lemma normalizeSep_of_not_mem (pat : List Char) (h : '\\' ∉ pat) :
    normalizeSep pat = pat := by
  unfold normalizeSep
  conv_rhs => rw [← List.map_id pat]
  exact List.map_congr_left fun c hc => if_neg (by rintro rfl; exact h hc)

lemma perform_sync_isRunning (st : DaemonState) (o : TransferOutcome) (now : ℚ) :
    (perform_sync st o now).1.isRunning = st.isRunning := by
  cases o <;> simp [perform_sync, get_pending_changes, update_daemon_stats]

lemma sync_tick_isRunning (st : DaemonState) (t : Tick) (h : t.stopAfter = false) :
    (sync_tick st t).1.isRunning = st.isRunning := by
  unfold sync_tick applyStop
  split_ifs with h1 h2 <;>
    simp_all [perform_sync_isRunning]

lemma sync_tick_sleep (st : DaemonState) (t : Tick) :
    (sync_tick st t).2 = if t.bodyRaises then (5 : ℚ) else 1 := by
  unfold sync_tick
  split_ifs <;> rfl

lemma sync_loop_run_all (ticks : List Tick) :
    ∀ st : DaemonState, st.isRunning = true → (∀ t ∈ ticks, t.stopAfter = false) →
      sync_loop st ticks =
        (ticks.map fun t => if t.bodyRaises then (5 : ℚ) else 1, false) := by
  induction ticks with
  | nil =>
      intro st _ _
      simp [sync_loop]
  | cons t rest ih =>
      intro st h1 h2
      have ht : t.stopAfter = false := h2 t (by simp)
      have hrest : ∀ t' ∈ rest, t'.stopAfter = false := fun t' h => h2 t' (by simp [h])
      have hrun' : (sync_tick st t).1.isRunning = true := by
        rw [sync_tick_isRunning st t ht, h1]
      rw [sync_loop, if_pos h1, ih _ hrun' hrest, sync_tick_sleep]
      simp

lemma sync_loop_exit_needs_stop (ticks : List Tick) :
    ∀ st : DaemonState, st.isRunning = true → (sync_loop st ticks).2 = true →
      ∃ t ∈ ticks, t.stopAfter = true := by
  induction ticks with
  | nil =>
      intro st _ h2
      simp [sync_loop] at h2
  | cons t rest ih =>
      intro st h1 h2
      by_cases ht : t.stopAfter = true
      · exact ⟨t, by simp, ht⟩
      · have ht' : t.stopAfter = false := by simpa using ht
        have hrun' : (sync_tick st t).1.isRunning = true := by
          rw [sync_tick_isRunning st t ht', h1]
        rw [sync_loop, if_pos h1] at h2
        obtain ⟨t', hmem, hstop⟩ := ih _ hrun' h2
        exact ⟨t', by simp [hmem], hstop⟩

lemma coalescerRun_mem_getD (ops : List CoalescerOp) :
    ∀ (st : DaemonState) (k : ℕ) (p : String),
      p ∈ (coalescerRun st ops).2.getD k ∅ ↔
        ((k = 0 ∧ p ∈ st.pending ∧ 0 < countDrains ops) ∨
         (recordedInWindow p ops k ∧ k < countDrains ops)) := by
  induction ops with
  | nil =>
      intro st k p
      simp [coalescerRun, countDrains, recordedInWindow]
  | cons op rest ih =>
      intro st k p
      cases op with
      | record q =>
          rw [show coalescerRun st (CoalescerOp.record q :: rest) =
                coalescerRun (add_pending_change st q) rest from rfl]
          rw [ih]
          cases k with
          | zero =>
              simp only [countDrains, recordedInWindow, add_pending_change,
                Finset.mem_insert]
              constructor
              · rintro (⟨-, hp | hp, hc⟩ | ⟨h, hc⟩)
                · exact Or.inr ⟨Or.inl hp.symm, hc⟩
                · exact Or.inl ⟨trivial, hp, hc⟩
                · exact Or.inr ⟨Or.inr h, hc⟩
              · rintro (⟨-, hp, hc⟩ | ⟨hq | h, hc⟩)
                · exact Or.inl ⟨trivial, Or.inr hp, hc⟩
                · exact Or.inl ⟨trivial, Or.inl hq.symm, hc⟩
                · exact Or.inr ⟨h, hc⟩
          | succ k' =>
              simp [countDrains, recordedInWindow, add_pending_change]
      | drain =>
          rw [show coalescerRun st (CoalescerOp.drain :: rest) =
                ((coalescerRun (get_pending_changes st).2 rest).1,
                  (get_pending_changes st).1 ::
                    (coalescerRun (get_pending_changes st).2 rest).2) from rfl]
          cases k with
          | zero =>
              simp [get_pending_changes, countDrains, recordedInWindow]
          | succ k' =>
              rw [show ((get_pending_changes st).1 ::
                    (coalescerRun (get_pending_changes st).2 rest).2).getD (k' + 1) ∅ =
                    ((coalescerRun (get_pending_changes st).2 rest).2).getD k' ∅ from
                  List.getD_cons_succ]
              rw [ih]
              simp [get_pending_changes, countDrains, recordedInWindow,
                Nat.succ_lt_succ_iff]

lemma exists_decomp_cons (op : CoalescerOp) (rest : List CoalescerOp) (p : String) (k : ℕ) :
    (∃ pre post, op :: rest = pre ++ CoalescerOp.record p :: post ∧ countDrains pre = k) ↔
      ((op = CoalescerOp.record p ∧ k = 0) ∨
       (∃ pre post, rest = pre ++ CoalescerOp.record p :: post ∧
          countDrains (op :: pre) = k)) := by
  constructor
  · rintro ⟨pre, post, hEq, hCd⟩
    rcases List.cons_eq_append_iff.mp hEq with ⟨rfl, h2⟩ | ⟨pre', rfl, h2⟩
    · obtain ⟨h3, -⟩ := List.cons.inj h2
      exact Or.inl ⟨h3.symm, by simpa [countDrains] using hCd.symm⟩
    · exact Or.inr ⟨pre', post, h2, hCd⟩
  · rintro (⟨rfl, rfl⟩ | ⟨pre, post, rfl, hCd⟩)
    · exact ⟨[], rest, rfl, rfl⟩
    · exact ⟨op :: pre, post, rfl, hCd⟩

lemma recordedInWindow_iff (p : String) (ops : List CoalescerOp) :
    ∀ k : ℕ, recordedInWindow p ops k ↔
      ∃ pre post, ops = pre ++ CoalescerOp.record p :: post ∧ countDrains pre = k := by
  induction ops with
  | nil =>
      intro k
      constructor
      · intro h
        exact absurd h (by simp [recordedInWindow])
      · rintro ⟨pre, post, hEq, -⟩
        exact absurd hEq.symm (by simp)
  | cons op rest ih =>
      intro k
      rw [exists_decomp_cons]
      cases op with
      | record q =>
          cases k with
          | zero => simp [recordedInWindow, countDrains, ih 0, eq_comm]
          | succ k' => simp [recordedInWindow, countDrains, ih (k' + 1)]
      | drain =>
          cases k with
          | zero => simp [recordedInWindow, countDrains]
          | succ k' => simp [recordedInWindow, countDrains, ih k']

lemma coalescerRun_append (l₁ l₂ : List CoalescerOp) :
    ∀ st : DaemonState,
      coalescerRun st (l₁ ++ l₂) =
        ((coalescerRun (coalescerRun st l₁).1 l₂).1,
         (coalescerRun st l₁).2 ++ (coalescerRun (coalescerRun st l₁).1 l₂).2) := by
  induction l₁ with
  | nil =>
      intro st
      simp [coalescerRun]
  | cons op rest ih =>
      intro st
      cases op with
      | record q => simpa [coalescerRun] using ih (add_pending_change st q)
      | drain => simp [coalescerRun, ih]

lemma coalescerRun_length (ops : List CoalescerOp) :
    ∀ st : DaemonState, (coalescerRun st ops).2.length = countDrains ops := by
  induction ops with
  | nil =>
      intro st
      simp [coalescerRun, countDrains]
  | cons op rest ih =>
      intro st
      cases op with
      | record q => simpa [coalescerRun, countDrains] using ih (add_pending_change st q)
      | drain => simp [coalescerRun, countDrains, ih]

lemma rstripSlash_append_slash (X : List Char) (h0 : X ≠ []) (h1 : ¬ X.getLast? = some '/') :
    rstripSlash (X ++ ['/']) = X := by
  unfold rstripSlash
  rw [List.reverse_append]
  simp only [List.reverse_cons, List.reverse_nil, List.nil_append, List.singleton_append]
  rw [List.dropWhile_cons, if_pos (by decide)]
  obtain ⟨c, t, hct⟩ : ∃ c t, X.reverse = c :: t := by
    cases hx : X.reverse with
    | nil => exact absurd (List.reverse_eq_nil_iff.mp hx) h0
    | cons c t => exact ⟨c, t, rfl⟩
  rw [hct, List.dropWhile_cons]
  have hc : ¬ (c = '/') := by
    intro hc
    apply h1
    rw [← List.head?_reverse, hct, hc]
    rfl
  rw [if_neg (by simpa using hc), ← hct, List.reverse_reverse]

/-! ## Theorems for the claims -/

/-- C1.  The scheduler trigger: a sync fires on a tick iff either the
forced condition holds (`now - lastSyncTime > 300`, even with no pending
changes) or the debounced condition holds (pending set non-empty and
`now - lastSyncTime > 5`).  Concretely, with `lastSyncTime = T`: no
pending changes at `T + 301` fires; one pending change at `T + 6` fires;
one pending change at `T + 4` does not fire. -/
theorem should_sync_now_spec (st : DaemonState) (now T : ℚ) (lp p : String)
    (sc : ℕ) (run : Bool) (reg : List (String × ℚ × ℕ)) :
    (should_sync_now st now = true ↔
      (now - st.lastSyncTime > max_sync_interval ∨
       (st.pending.Nonempty ∧ now - st.lastSyncTime > sync_delay))) ∧
    should_sync_now ⟨lp, ∅, T, sc, run, reg⟩ (T + 301) = true ∧
    should_sync_now ⟨lp, {p}, T, sc, run, reg⟩ (T + 6) = true ∧
    should_sync_now ⟨lp, {p}, T, sc, run, reg⟩ (T + 4) = false := by
  refine ⟨?_, ?_, ?_, ?_⟩
  · unfold should_sync_now
    split_ifs with h1 h2 <;> simp_all
  · norm_num [should_sync_now, max_sync_interval, sync_delay]
  · norm_num [should_sync_now, max_sync_interval, sync_delay,
      Finset.singleton_nonempty]
  · norm_num [should_sync_now, max_sync_interval, sync_delay]

/-- C2.  Coalescer correctness for every linearized sequence of `record`
and `drain` operations started from the initial (empty) state: a path
belongs to the `k`-th drain result exactly when some `record` of it occurs
with exactly `k` drains before it and a drain after it (every path
recorded strictly before a drain's completion appears in exactly the one
drain result indexed by its window — no loss, no duplication across
drains); moreover a drain returns the pending set as it stood and leaves
the pending set empty. -/
theorem coalescer_no_loss_no_dup (lp p : String) (ops : List CoalescerOp) (k : ℕ) :
    (p ∈ (coalescerRun (initState lp) ops).2.getD k ∅ ↔
       ((∃ pre post, ops = pre ++ CoalescerOp.record p :: post ∧ countDrains pre = k) ∧
        k < countDrains ops)) ∧
    (coalescerRun (initState lp) (ops ++ [CoalescerOp.drain])).1.pending = ∅ ∧
    (coalescerRun (initState lp) (ops ++ [CoalescerOp.drain])).2.getD (countDrains ops) ∅ =
      (coalescerRun (initState lp) ops).1.pending := by
  refine ⟨?_, ?_, ?_⟩
  · rw [coalescerRun_mem_getD]
    simp [initState, recordedInWindow_iff]
  · rw [coalescerRun_append]
    simp [coalescerRun, get_pending_changes]
  · rw [coalescerRun_append]
    have hlen := coalescerRun_length ops (initState lp)
    rw [List.getD_append_right _ _ _ _ (le_of_eq hlen)]
    rw [hlen, Nat.sub_self]
    simp [coalescerRun, get_pending_changes]

/-- C3.  `perform_sync` drains the coalescer before invoking the transfer:
whatever the transfer outcome — success, failure, or an exception caught
by the `except` clause — the pending-change set is empty when the call
completes, so drained changes are never re-queued (at-most-once attempt
per detected change). -/
theorem perform_sync_drains (st : DaemonState) (outcome : TransferOutcome) (now : ℚ) :
    (perform_sync st outcome now).1.pending = ∅ := by
  cases outcome <;> simp [perform_sync, get_pending_changes, update_daemon_stats]

/-- C4.  `perform_sync` statistics postcondition: on transfer success,
`sync_count` is incremented, `last_sync_time` is set to the current time,
and the updated statistics are pushed to the process registry keyed by the
daemon's canonical path; on transfer failure and on a raised transfer
exception, `sync_count`, `last_sync_time` and the registry are unchanged
and the call reports failure. -/
theorem perform_sync_stats (st : DaemonState) (now : ℚ) :
    ((perform_sync st TransferOutcome.success now).1.syncCount = st.syncCount + 1 ∧
     (perform_sync st TransferOutcome.success now).1.lastSyncTime = now ∧
     (perform_sync st TransferOutcome.success now).1.registry =
       (st.localPath, now, st.syncCount + 1) :: st.registry ∧
     (perform_sync st TransferOutcome.success now).2 = true) ∧
    ((perform_sync st TransferOutcome.failure now).1.syncCount = st.syncCount ∧
     (perform_sync st TransferOutcome.failure now).1.lastSyncTime = st.lastSyncTime ∧
     (perform_sync st TransferOutcome.failure now).1.registry = st.registry ∧
     (perform_sync st TransferOutcome.failure now).2 = false) ∧
    ((perform_sync st TransferOutcome.raised now).1.syncCount = st.syncCount ∧
     (perform_sync st TransferOutcome.raised now).1.lastSyncTime = st.lastSyncTime ∧
     (perform_sync st TransferOutcome.raised now).1.registry = st.registry ∧
     (perform_sync st TransferOutcome.raised now).2 = false) := by
  simp [perform_sync, get_pending_changes, update_daemon_stats]

/-- C5.  When an exception escapes into a scheduler-loop iteration, the
loop catches it and sleeps 5 seconds instead of 1 before the next tick,
then resumes: as long as no external stop request arrives, the loop
processes every tick (sleeping 5 after a raising tick, 1 otherwise) and
never terminates; the loop exits through its guard only when `is_running`
has been set false by a stop request. -/
theorem sync_loop_backoff (st : DaemonState) (ticks : List Tick)
    (hrun : st.isRunning = true) (hstop : ∀ t ∈ ticks, t.stopAfter = false) :
    sync_loop st ticks =
      (ticks.map fun t => if t.bodyRaises then (5 : ℚ) else 1, false) ∧
    ∀ ticks' : List Tick, (sync_loop st ticks').2 = true →
      ∃ t ∈ ticks', t.stopAfter = true :=
  ⟨sync_loop_run_all ticks st hrun hstop,
   fun ticks' => sync_loop_exit_needs_stop ticks' st hrun⟩

/-- Witness for C5: a raising tick followed by a normal tick yields sleeps
of 5 then 1 seconds, and the loop does not exit. -/
theorem sync_loop_backoff_witness :
    sync_loop ⟨"w", ∅, 0, 0, true, []⟩
      [⟨0, true, TransferOutcome.success, false⟩,
       ⟨1, false, TransferOutcome.failure, false⟩] = ([5, 1], false) := by
  rw [(sync_loop_backoff ⟨"w", ∅, 0, 0, true, []⟩
    [⟨0, true, TransferOutcome.success, false⟩,
     ⟨1, false, TransferOutcome.failure, false⟩] rfl (by decide)).1]
  rfl

/-- C6.  The exclusion matcher is a function of the rule list and the
relative path alone; an empty rule list excludes nothing; the trailing
slash rule excludes the subtree examples and not the sibling; the glob
rule excludes by suffix on the relative path or bare name; a rule with no
wildcard and no trailing slash excludes exactly the paths whose relative
form or bare file name equals it. -/
theorem should_exclude_file_rules (pat q : List Char)
    (hslash : ¬ pat.getLast? = some '/') (hstar : '*' ∉ pat) (hbs : '\\' ∉ pat) :
    (∀ r, should_exclude_file [] r = false) ∧
    should_exclude_file ["build/".data] "build/x.o".data = true ∧
    should_exclude_file ["build/".data] "build/sub/y".data = true ∧
    should_exclude_file ["build/".data] "not_build/x".data = false ∧
    should_exclude_file ["*.log".data] "a.log".data = true ∧
    should_exclude_file ["*.log".data] "dir/b.log".data = true ∧
    should_exclude_file ["*.log".data] "a.log.txt".data = false ∧
    (should_exclude_file [pat] q = true ↔ q = pat ∨ baseName q = pat) := by
  refine ⟨fun r => rfl, by decide, by decide, by decide, by decide, by decide,
    by decide, ?_⟩
  unfold should_exclude_file
  simp only [List.any_cons, List.any_nil, Bool.or_false]
  simp only [matchesPattern]
  rw [normalizeSep_of_not_mem pat hbs, if_neg hslash, if_neg hstar]
  simp

/-- Witness for C6 at the exact rule "README" against path "docs/README". -/
theorem should_exclude_file_rules_witness :
    should_exclude_file ["README".data] "docs/README".data = true :=
  (should_exclude_file_rules "README".data "docs/README".data (by decide) (by decide)
    (by decide)).2.2.2.2.2.2.2.mpr (Or.inr (by decide))

/-- C9.  A trailing-slash rule is matched by plain string prefix: for a
rule `X ++ "/"` (with `X` non-empty, not itself ending in a slash, and
backslash-free), a relative path is excluded exactly when its text starts
with `X` — no directory-component boundary is required, so sibling
directories whose names merely extend `X` are excluded too. -/
theorem trailing_slash_prefix_rule (X q : List Char)
    (h0 : X ≠ []) (h1 : ¬ X.getLast? = some '/') (hbs : '\\' ∉ X) :
    should_exclude_file [X ++ ['/']] q = X.isPrefixOf q := by
  unfold should_exclude_file
  simp only [List.any_cons, List.any_nil, Bool.or_false]
  simp only [matchesPattern]
  have hn : normalizeSep (X ++ ['/']) = X ++ ['/'] := by
    refine normalizeSep_of_not_mem _ ?_
    intro h
    rcases List.mem_append.mp h with h | h
    · exact hbs h
    · exact absurd h (by decide)
  rw [hn, if_pos (List.getLast?_concat X), rstripSlash_append_slash X h0 h1]

/-- Witness for C9: rule "build/" excludes the sibling path "buildings/x". -/
theorem trailing_slash_prefix_rule_witness :
    should_exclude_file ["build".data ++ ['/']] "buildings/x".data = true := by
  rw [trailing_slash_prefix_rule "build".data "buildings/x".data (by decide) (by decide)
    (by decide)]
  decide

/-- C7.  When a live daemon record already exists for the canonical local
path, `start` fails immediately: it returns `False`, performs no side
effects in the invoking process (no watcher scheduled, no fork, no
registration, no sync), and no daemon process runs — in every mode. -/
theorem start_already_running_no_effects (detach forkFails : Bool) :
    start_run true detach forkFails = ([], false, none) := by
  simp [start_run]

/-- C8 counterexample.  In foreground mode (`detach = false`, no live
record, no fork failure) the daemon's effect trace contains no
registration at all: the `not detach or not start_daemon(...)` condition
short-circuits, so the claim that every start mode registers a record
before the watch loop is false. -/
theorem start_foreground_no_register :
    StartEffect.register ∉ ((start_run false false false).2.2.getD []) := by
  decide

/-- C8 amended.  Registration happens only in detached mode: the parent
process registers the record before `start` returns, and the forked child
re-registers before entering the watch loop; in foreground mode
(`detach = false`) no registration is performed at all, so a foreground
daemon is not visible to registry queries. -/
theorem start_register_by_mode :
    (StartEffect.register ∈ (start_run false true false).1 ∧
     ((start_run false true false).2.2.getD []).indexOf StartEffect.register <
       ((start_run false true false).2.2.getD []).indexOf StartEffect.watchLoop) ∧
    StartEffect.register ∉ ((start_run false false false).2.2.getD []) := by
  decide

/-- C10.  A freshly started daemon always performs one synchronization
pass: in every mode in which a daemon process runs, its effect trace
contains `initialSync` exactly once, after the observer start and the
scheduler-thread start; and since `__init__` sets `last_sync_time = 0.0`,
the forced trigger `now - lastSyncTime > 300` holds on the very first
scheduler tick for any clock value above 300, even with an empty
pending-change set. -/
theorem initial_sync_on_start (path : String) (now : ℚ) (h : now > 300) :
    (∀ detach forkFails : Bool,
       (start_run false detach forkFails).2.2 = none ∨
       (((start_run false detach forkFails).2.2.getD []).count StartEffect.initialSync = 1 ∧
        ((start_run false detach forkFails).2.2.getD []).indexOf StartEffect.observerStart <
          ((start_run false detach forkFails).2.2.getD []).indexOf StartEffect.initialSync ∧
        ((start_run false detach forkFails).2.2.getD []).indexOf StartEffect.schedulerThreadStart <
          ((start_run false detach forkFails).2.2.getD []).indexOf StartEffect.initialSync)) ∧
    (initState path).lastSyncTime = 0 ∧
    (initState path).pending = ∅ ∧
    should_sync_now (initState path) now = true := by
  refine ⟨by decide, rfl, rfl, ?_⟩
  unfold should_sync_now
  have : now - (initState path).lastSyncTime > max_sync_interval := by
    simp only [initState, max_sync_interval]
    linarith
  simp [this]

/-- Witness for C10 at `now = 301`. -/
theorem initial_sync_on_start_witness :
    should_sync_now (initState "w") 301 = true :=
  (initial_sync_on_start "w" 301 (by norm_num)).2.2.2

end Csync
